import Mathlib

/-!
Verification of the stem-separation pipeline in `main.py`
(`slugify_basename`, `find_stems`, `run_demucs`, `zip_dir`, `separate_core`,
`safe_rmtree`).  Pure string manipulation is embedded directly; the
filesystem is embedded as a tree of named entries; the effectful pipeline
(`separate_core`) is embedded as a function from an explicit environment
(ffmpeg availability, the fresh temp-directory name, the external process
outcome, and the directory tree the external tool produced) to a result
together with a trace of the side effects it performed, in order.
-/

deriving instance DecidableEq for Except

namespace SepSongs

/-! ### Character and string helpers

Python string operations used by the source, re-expressed over `List Char`.
All definitions are structurally recursive so concrete instances evaluate
by `rfl`/`decide`. -/

/-- Models Python `str.lower` / `.lower()`. Python's case map is
Unicode-wide; this model lowercases the ASCII range and leaves other
characters unchanged, which agrees with Python on every character that can
produce one of the ASCII stem keys or model names tested by the code. -/
def asciiLower (c : Char) : Char :=
  if 'A' ≤ c && c ≤ 'Z' then Char.ofNat (c.toNat + 32) else c

/-- Models Python `str.lower` on whole strings. -/
def lowerS (s : String) : String :=
  String.mk (s.toList.map asciiLower)

/-- Models the Python regex class `\w` (re.UNICODE, the default).  Python's
`\w` covers all Unicode word characters; this model covers the Basic Latin
word characters `[A-Za-z0-9_]` together with the Latin-1 letters
U+00C0–U+00FF (excluding × U+00D7 and ÷ U+00F7), which Python also counts
as word characters.  Crucially, like Python and unlike an ASCII-only
`[A-Za-z0-9_]` class, it accepts accented letters such as 'é'. -/
def isWordChar (c : Char) : Bool :=
  c.isAlpha || c.isDigit || c == '_' ||
    (0xC0 ≤ c.toNat && c.toNat ≤ 0xFF && c.toNat != 0xD7 && c.toNat != 0xF7)

/-- Models the Python regex class `\s` on the ASCII range
(space, tab, newline, carriage return, vertical tab, form feed). -/
def isSpaceChar (c : Char) : Bool :=
  c == ' ' || c == '\t' || c == '\n' || c == '\r' || c.toNat == 11 || c.toNat == 12

/-- Characters collapsed by `re.sub(r"[-\s]+", "-", ...)`. -/
def isSepChar (c : Char) : Bool :=
  c == '-' || isSpaceChar c

/-- Characters removed by `.strip("-_")`. -/
def isDashUnd (c : Char) : Bool :=
  c == '-' || c == '_'

/-- Boolean list-prefix test (`p` is a prefix of `s`). -/
def isPrefixL : List Char → List Char → Bool
  | [], _ => true
  | _ :: _, [] => false
  | a :: as, b :: bs => a == b && isPrefixL as bs

/-- Boolean list-suffix test. -/
def isSuffixL (p s : List Char) : Bool :=
  isPrefixL p.reverse s.reverse

/-- Models the Python substring test `p in s` over char lists. -/
def hasSubstrL (p : List Char) : List Char → Bool
  | [] => isPrefixL p []
  | c :: rest => isPrefixL p (c :: rest) || hasSubstrL p rest

/-- Models the Python substring test `p in s` on strings. -/
def hasSubstrS (p s : String) : Bool :=
  hasSubstrL p.toList s.toList

/-- Whether a directory-entry name matches the glob pattern `*.wav`
(used by `glob("*.wav")` and `rglob("*.wav")`; the glob is name-based and
does not look at the entry's type). -/
def wavName (s : String) : Bool :=
  isSuffixL ".wav".toList s.toList

/-- Split a char list at '/' separators (all pieces, including empties). -/
def splitSlash : List Char → List (List Char)
  | [] => [[]]
  | c :: rest =>
    let r := splitSlash rest
    if c == '/' then [] :: r
    else
      match r with
      | [] => [[c]]
      | h :: t => (c :: h) :: t

/-- Models `pathlib.Path(s).name`: the final non-empty slash-separated
component of the string (empty when there is none). -/
def pyName (s : String) : String :=
  String.mk ((((splitSlash s.toList).filter (fun c => !c.isEmpty)).getLast?).getD [])

/-- Index of the last '.' in a char list, if any (Python `str.rfind`). -/
def lastDotIdx (cs : List Char) : Option Nat :=
  cs.enum.foldl (fun acc ic => if ic.2 == '.' then some ic.1 else acc) none

/-- Stem of a bare file name: drop the last suffix when the last dot is
neither the first nor the last character (pathlib's rule). -/
def stemChars (cs : List Char) : List Char :=
  match lastDotIdx cs with
  | some i => if 0 < i && i + 1 < cs.length then cs.take i else cs
  | none => cs

/-- Models `pathlib.Path(s).stem`. -/
def pathStem (s : String) : String :=
  String.mk (stemChars (pyName s).toList)

/-- One pass of `re.sub(r"[-\s]+", "-", ...)`: each maximal run of
hyphen/whitespace characters becomes a single '-'.  The boolean records
whether the previous character belonged to such a run. -/
def squashSep : Bool → List Char → List Char
  | _, [] => []
  | prev, c :: rest =>
    if isSepChar c then
      if prev then squashSep true rest else '-' :: squashSep true rest
    else c :: squashSep false rest

/-- Models `.strip("-_")`. -/
def stripDashUnd (cs : List Char) : List Char :=
  ((cs.dropWhile isDashUnd).reverse.dropWhile isDashUnd).reverse

/-- Models Python `str.strip()` (whitespace strip, used on stderr). -/
def stripWs (s : String) : String :=
  String.mk (((s.toList.dropWhile isSpaceChar).reverse.dropWhile isSpaceChar).reverse)

/-- Models Python `s[-n:]`: the last at-most-`n` characters. -/
def takeRightN (n : Nat) (s : String) : String :=
  String.mk ((s.toList.reverse.take n).reverse)

/-- Python codepoint-lexicographic `<` on char lists. -/
def ltL : List Char → List Char → Bool
  | [], [] => false
  | [], _ :: _ => true
  | _ :: _, [] => false
  | a :: as, b :: bs => a < b || (a == b && ltL as bs)

/-- Python string `<` (codepoint lexicographic; `sorted` on same-directory
`Path`s reduces to this comparison on the file names). -/
def strLt (a b : String) : Bool :=
  ltL a.toList b.toList

/-- Insert into an ascending list (helper for `sortStrs`). -/
def insertSortedStr (x : String) : List String → List String
  | [] => [x]
  | y :: ys => if strLt y x then y :: insertSortedStr x ys else x :: y :: ys

/-- Models Python `sorted` on a list of same-directory paths: ascending
codepoint order of the names (duplicates are identical strings, so any
correct sort yields the same list). -/
def sortStrs : List String → List String
  | [] => []
  | x :: xs => insertSortedStr x (sortStrs xs)

/-! ### Configuration constants (module-level in `main.py`) -/

/-- The fixed supported model identifiers (`DEMUCS_MODELS`). -/
def DEMUCS_MODELS : List String :=
  ["htdemucs", "htdemucs_ft", "mdx", "mdx_extra"]

/-- The four canonical stem keys (`STEM_KEYS`). -/
def STEM_KEYS : List String :=
  ["vocals", "drums", "bass", "other"]

/-! ### Input Normalizer (`slugify_basename`) -/

/-- Models `slugify_basename(name, default)`:
`Path(name).stem`, lowercase, drop characters outside `[\w\s-]`, collapse
`[-\s]+` runs into single hyphens, strip leading/trailing `-_`, and fall
back to `default` when the result is empty. -/
def slugify_basename (name default : String) : String :=
  let base := pathStem name
  let cs := base.toList.map asciiLower
  let cs := cs.filter (fun c => isWordChar c || isSpaceChar c || c == '-')
  let cs := stripDashUnd (squashSep false cs)
  if cs.isEmpty then default else String.mk cs

/-! ### Stem Mapper (`find_stems`) -/

/-- A `StemSet`: the dict `{key: Optional[str] for key in STEM_KEYS}`. -/
structure StemSet where
  vocals : Option String
  drums : Option String
  bass : Option String
  other : Option String
deriving DecidableEq

/-- The all-`None` dict `find_stems` starts from. -/
def StemSet.empty : StemSet := ⟨none, none, none, none⟩

/-- Dict assignment `paths[key] = v` for a key drawn from `STEM_KEYS`. -/
def StemSet.set (s : StemSet) (key : String) (v : Option String) : StemSet :=
  if key == "vocals" then { s with vocals := v }
  else if key == "drums" then { s with drums := v }
  else if key == "bass" then { s with bass := v }
  else if key == "other" then { s with other := v }
  else s

/-- Dict lookup `paths[key]` for a key drawn from `STEM_KEYS`. -/
def StemSet.get (s : StemSet) (key : String) : Option String :=
  if key == "vocals" then s.vocals
  else if key == "drums" then s.drums
  else if key == "bass" then s.bass
  else if key == "other" then s.other
  else none

/-- Models `any(paths.values())`. -/
def StemSet.anyAssigned (s : StemSet) : Bool :=
  s.vocals.isSome || s.drums.isSome || s.bass.isSome || s.other.isSome

/-- The inner loop of `find_stems`'s name-matching pass: for one wav `w`,
assign `w` to every key whose text occurs in the lowercased stem of `w`. -/
def assignMatches (acc : StemSet) (w : String) : StemSet :=
  STEM_KEYS.foldl
    (fun a key => if hasSubstrS key (lowerS (pathStem w)) then a.set key (some w) else a)
    acc

/-- Models `find_stems(stems_dir)`.  The argument is the directory's entry
names in listing order (each name standing for the `str(w)` path with the
common directory prefix elided, which preserves both the substring tests on
stems and the sort order).  `glob("*.wav")` keeps the entries whose names
match `*.wav`; the name pass assigns by substring match (later files
overwrite earlier ones); if nothing was assigned but wavs exist, keys are
filled by sorted ordinal position, truncating past the list's length. -/
def find_stems (entries : List String) : StemSet :=
  let wavs := entries.filter wavName
  let paths := wavs.foldl assignMatches StemSet.empty
  if !paths.anyAssigned && !wavs.isEmpty then
    let ws := sortStrs wavs
    STEM_KEYS.enum.foldl
      (fun a ik =>
        match ws.get? ik.1 with
        | some w => a.set ik.2 (some w)
        | none => a)
      paths
  else paths

/-! ### Filesystem trees and the Output Locator (`run_demucs`, lines 90–108)

A directory's contents are a `List FS` in listing (`iterdir`/`scandir`)
order; paths are lists of entry names. -/

/-- A filesystem entry: a file, or a directory with its contents. -/
inductive FS where
  | file (name : String)
  | dir (name : String) (children : List FS)

/-- Name of an entry. -/
def FS.name : FS → String
  | .file n => n
  | .dir n _ => n

/-- Whether an entry is a directory (`Path.is_dir`). -/
def FS.isDir : FS → Bool
  | .file _ => false
  | .dir _ _ => true

/-- Contents of a directory entry (a file has none). -/
def FS.children : FS → List FS
  | .file _ => []
  | .dir _ cs => cs

/-- Models `list(p.glob("*.wav"))`: the entries of a directory whose names
match `*.wav`, in listing order. -/
def globWav (cs : List FS) : List FS :=
  cs.filter (fun e => wavName e.name)

/-- The directories strictly below a directory listing, in the order
pathlib's `**` wildcard visits them: each entry in listing order, a
directory yielding itself and then, recursively, its own subdirectories.
Each result pairs the directory's path (relative to the listing) with its
contents. -/
def listDirsUnder : List FS → List (List String × List FS)
  | [] => []
  | FS.file _ :: es => listDirsUnder es
  | FS.dir n cs :: es =>
      ([n], cs) :: ((listDirsUnder cs).map (fun pk => (n :: pk.1, pk.2)) ++ listDirsUnder es)

/-- All directories visited by `rglob` starting from a directory with
contents `cs`: the directory itself, then `listDirsUnder cs`. -/
def dirsFrom (cs : List FS) : List (List String × List FS) :=
  ([], cs) :: listDirsUnder cs

/-- Models `for p in model_dir.rglob("*.wav"): return p.parent`: the path
of the first directory, in `rglob` traversal order, holding at least one
`*.wav` entry (that directory is the parent of the first match). -/
def firstWavParent (cs : List FS) : Option (List String) :=
  (dirsFrom cs).findSome? (fun pk => if (globWav pk.2).isEmpty then none else some pk.1)

/-- True when no entry named `*.wav` exists anywhere in the tree. -/
def noWavAnywhere (cs : List FS) : Bool :=
  (dirsFrom cs).all (fun pk => (globWav pk.2).isEmpty)

/-- The Output Locator's failure modes: `noSubdirs` is the
`"Saída do Demucs não encontrada"` raise (no model directory and no
subdirectory at all), `noStems` is the
`"Pastas/arquivos de stems não encontrados"` raise (no wav found by any
strategy); both are `RuntimeError`s in the spec's `OutputNotFound` family.
`notADir` models the uncaught `NotADirectoryError` Python would raise from
`model_dir.iterdir()` if `out_root/<model>` existed but were a plain file. -/
inductive LocErr where
  | noSubdirs
  | noStems
  | notADir
deriving DecidableEq

/-- The loop `for child in children: if list(child.glob("*.wav")): return
child` over the model directory's immediate subdirectories: the first one
holding a `*.wav` entry, as a path below `out_root`. -/
def childWithWav (mname : String) (mch : List FS) : Option (List String) :=
  (mch.filter FS.isDir).findSome?
    (fun child => if (globWav (FS.children child)).isEmpty then none
                  else some [mname, FS.name child])

/-- Steps 3–5 of the locator, inside the resolved model directory: the
first immediate subdirectory holding a `*.wav`; else the model directory
itself if it directly holds one; else the parent of the first `rglob`
match; else the `noStems` failure.  Returned paths are relative to
`out_root`. -/
def locateInModelDir : FS → Except LocErr (List String)
  | .file _ => .error .notADir
  | .dir mname mch =>
    match childWithWav mname mch with
    | some p => .ok p
    | none =>
      if (globWav mch).isEmpty then
        match firstWavParent mch with
        | some rel => .ok (mname :: rel)
        | none => .error .noStems
      else .ok [mname]

/-- The Output Locator of `run_demucs` (source lines 90–108): prefer the
entry named after the model if it exists, else the first subdirectory of
`out_root` (error `noSubdirs` when there is none), then resolve inside it
with `locateInModelDir`. -/
def locate_stems_dir (out_root : List FS) (model_name : String) : Except LocErr (List String) :=
  match out_root.find? (fun e => FS.name e == model_name) with
  | some e => locateInModelDir e
  | none =>
    match (out_root.filter FS.isDir).head? with
    | none => .error .noSubdirs
    | some d => locateInModelDir d

/-! #### The locator as the spec words it (§4.3)

Modelled from the spec: an explicit prioritized list of strategies, first
match wins, used to compare the source's control flow against the spec's
step list. -/

/-- Spec step 1: `output_root/<model_identifier>` if it exists. -/
def stratNamedModel (cs : List FS) (model : String) : Option FS :=
  cs.find? (fun e => FS.name e == model)

/-- Spec step 2: else the first subdirectory under `output_root`. -/
def stratFirstSub (cs : List FS) : Option FS :=
  (cs.filter FS.isDir).head?

/-- Spec step 3: the first immediate subdirectory containing an audio file. -/
def stratChildWithWav (mdir : FS) : Option (List String) :=
  ((FS.children mdir).filter FS.isDir).findSome?
    (fun child => if (globWav (FS.children child)).isEmpty then none
                  else some [FS.name mdir, FS.name child])

/-- Spec step 4: the model directory itself, if it directly contains audio. -/
def stratDirectWav (mdir : FS) : Option (List String) :=
  if (globWav (FS.children mdir)).isEmpty then none else some [FS.name mdir]

/-- Spec step 5: the parent of the first audio file found recursively. -/
def stratRecursiveWav (mdir : FS) : Option (List String) :=
  (firstWavParent (FS.children mdir)).map (fun rel => FS.name mdir :: rel)

/-- Modelled from the spec: the Output Locator as the §4.3 ordered step
list (steps 1–2 resolve the model directory or fail; steps 3–5 locate the
stems within it or fail with the `OutputNotFound` family). -/
def locatorSpec (cs : List FS) (model : String) : Except LocErr (List String) :=
  match stratNamedModel cs model <|> stratFirstSub cs with
  | none => .error .noSubdirs
  | some mdir =>
    match stratChildWithWav mdir <|> stratDirectWav mdir <|> stratRecursiveWav mdir with
    | some p => .ok p
    | none => .error .noStems

/-- Hypothesis under which the Python code is free of the
`NotADirectoryError` corner: any `out_root` entry named after the model is
a directory (always true for output the external tool wrote). -/
def modelEntryOk (cs : List FS) (model : String) : Prop :=
  ∀ e ∈ cs, FS.name e = model → FS.isDir e = true

instance (cs : List FS) (model : String) : Decidable (modelEntryOk cs model) :=
  inferInstanceAs (Decidable (∀ e ∈ cs, FS.name e = model → FS.isDir e = true))

/-! ### Separation Invoker and Pipeline Orchestrator
(`ensure_ffmpeg_in_path`, `run_demucs`, `zip_dir`, `separate_core`)

The effectful pipeline is embedded as a function from an explicit
environment to `Except`-result plus an ordered trace of side effects. -/

/-- The environment one pipeline run observes: whether `shutil.which`
finds ffmpeg, the fresh directory `tempfile.mkdtemp` returns, whether the
`demucs` subprocess exits with status 0, the stderr it captured on
failure, `str(e)` of the `CalledProcessError`, and the listing of the
output root after a successful run. -/
structure Env where
  ffmpeg : Bool
  workdir : List String
  runOk : Bool
  stderr : String
  excStr : String
  produced : List FS

/-- The side effects `separate_core` can perform, in order:
the ffmpeg lookup, `tempfile.mkdtemp`, `mkdir`, `shutil.copyfile`,
`subprocess.run` of the external tool, inspecting the output root, and
`shutil.make_archive`. -/
inductive Event where
  | checkFfmpeg
  | mkTemp (pre : String)
  | mkDir (p : List String)
  | copy (src : String) (dst : List String)
  | spawn (cmd : List String)
  | inspect (root : List String)
  | archive (src : List String) (base : List String)
deriving DecidableEq

/-- Whether an event is a subprocess spawn. -/
def Event.isSpawn : Event → Bool
  | .spawn _ => true
  | _ => false

/-- Whether an event inspects the output directory. -/
def Event.isInspect : Event → Bool
  | .inspect _ => true
  | _ => false

/-- Whether an event creates a directory on disk (`mkdtemp` or `mkdir`). -/
def Event.makesDir : Event → Bool
  | .mkTemp _ => true
  | .mkDir _ => true
  | _ => false

/-- The errors `separate_core` can raise: `dependencyMissing` is the
ffmpeg `RuntimeError`, `invalidModel` the `ValueError` for an unsupported
model, `execFailed` the `RuntimeError` for a non-zero demucs exit,
`outputMissing` the two locator `RuntimeError`s (the spec's
`OutputNotFound`), and `notADirectory` the uncaught corner described at
`LocErr.notADir`. -/
inductive SepError where
  | dependencyMissing
  | invalidModel (model : String)
  | execFailed (msg : String)
  | outputMissing (msg : String)
  | notADirectory
deriving DecidableEq

/-- Render a component path the way `str(Path(...))` is handed to the
command line. -/
def pathStr (p : List String) : String :=
  String.intercalate "/" p

/-- The command line `run_demucs` builds:
`["demucs", "-n", model, "-o", out_root, "-d", device, input]` with
device `"cuda"` when `use_gpu` else `"cpu"`. -/
def demucs_cmd (input_path model_name : String) (use_gpu : Bool) (out_root : String) : List String :=
  let device := if use_gpu then "cuda" else "cpu"
  ["demucs", "-n", model_name, "-o", out_root, "-d", device, input_path]

/-- The `ExecutionFailure` message `run_demucs` assembles: stripped
stderr truncated to its last 2000 characters (or `str(e)` when stderr is
empty), plus the two pattern-matched hints. -/
def demucsFailureMsg (rawStderr excStr device : String) : String :=
  let se := stripWs rawStderr
  let hints :=
    (if hasSubstrS "argument" se && hasSubstrS "--cpu" se then
      ["A flag --cpu não existe nessa versão. Use -d cpu/cuda."] else []) ++
    (if hasSubstrS "not available" (lowerS se) && device == "cuda" then
      ["CUDA não disponível: instale PyTorch com CUDA ou use -d cpu."] else [])
  let msg := "Falha ao executar Demucs.\n" ++ (if se.isEmpty then excStr else takeRightN 2000 se)
  if hints.isEmpty then msg
  else msg ++ "\n\nDicas:\n- " ++ String.intercalate "\n- " hints

/-- Locator failure messages, as raised by `run_demucs`. -/
def locErrMsg : LocErr → SepError
  | .noSubdirs => .outputMissing "Saída do Demucs não encontrada. Verifique logs."
  | .noStems => .outputMissing "Pastas/arquivos de stems não encontrados na saída do Demucs."
  | .notADir => .notADirectory

/-- Models `run_demucs(input_path, model_name, use_gpu, out_root)`:
validate the model (ValueError before anything is spawned), run the
subprocess, raise `execFailed` on non-zero exit, then locate the stems
directory in the output the tool produced (`env.produced` is the listing
of `out_root` after the run).  Returns the stems directory path and the
trace of effects. -/
def run_demucs (env : Env) (input_path model_name : String) (use_gpu : Bool)
    (out_root : List String) : Except SepError (List String) × List Event :=
  if model_name ∈ DEMUCS_MODELS then
    let device := if use_gpu then "cuda" else "cpu"
    let cmd := demucs_cmd input_path model_name use_gpu (pathStr out_root)
    if env.runOk then
      match locate_stems_dir env.produced model_name with
      | .ok rel => (.ok (out_root ++ rel), [.spawn cmd, .inspect out_root])
      | .error le => (.error (locErrMsg le), [.spawn cmd, .inspect out_root])
    else
      (.error (.execFailed (demucsFailureMsg env.stderr env.excStr device)), [.spawn cmd])
  else
    (.error (.invalidModel model_name), [])

/-- Models `separate_core(file_path, model_name, use_gpu)`: check ffmpeg
(raising `dependencyMissing` before any directory is created), make the
work area with its `uploads/` and `separated/` substructure, copy the
input under its slugified name with a forced `.wav` extension, run demucs,
and archive the stems directory (`zip_dir` returns `zip_base + ".zip"`).
Returns `(zip_path, workdir, stems_dir)` and the ordered effect trace. -/
def separate_core (env : Env) (file_path model_name : String) (use_gpu : Bool) :
    Except SepError (List String × List String × List String) × List Event :=
  if env.ffmpeg then
    let workdir := env.workdir
    let uploads := workdir ++ ["uploads"]
    let outputs := workdir ++ ["separated"]
    let safe_base := slugify_basename file_path "input"
    let in_path := uploads ++ [safe_base ++ ".wav"]
    let ev0 := [Event.checkFfmpeg, Event.mkTemp "demucs_work_", Event.mkDir uploads,
                Event.mkDir outputs, Event.copy file_path in_path]
    match run_demucs env (pathStr in_path) model_name use_gpu outputs with
    | (.ok stems_dir, evs) =>
        let zip_path := workdir ++ [safe_base ++ ".zip"]
        (.ok (zip_path, workdir, stems_dir),
         ev0 ++ evs ++ [Event.archive stems_dir (workdir ++ [safe_base])])
    | (.error e, evs) => (.error e, ev0 ++ evs)
  else
    (.error .dependencyMissing, [Event.checkFfmpeg])

/-! ### Cleanup (`safe_rmtree`) -/

/-- Look up the entry at a path in a directory listing. -/
def lookupFS (cs : List FS) : List String → Option FS
  | [] => none
  | [n] => cs.find? (fun e => FS.name e == n)
  | n :: rest =>
    match cs.find? (fun e => FS.name e == n) with
    | some (.dir _ k) => lookupFS k rest
    | _ => none

/-- Remove the subtree at a path from a directory listing (the effect of a
fully successful `shutil.rmtree`); removing a missing path is a no-op. -/
def removeAt (cs : List FS) : List String → List FS
  | [] => cs
  | [n] => cs.filter (fun e => !(FS.name e == n))
  | n :: rest =>
    cs.map (fun e =>
      match e with
      | .dir m k => if m == n then FS.dir m (removeAt k rest) else FS.dir m k
      | f => f)

/-- Models `shutil.rmtree(path, ignore_errors=...)` over the tree model.
`ioError` is the environment's oracle for an operating-system failure
during removal.  Without `ignore_errors`, a missing path raises
`FileNotFoundError` and an OS failure raises `OSError`; with
`ignore_errors=True` every error is suppressed and, best-effort, nothing
is guaranteed removed on failure. -/
def rmtree (cs : List FS) (p : List String) (ioError ignoreErrors : Bool) :
    Except String (List FS) :=
  if ignoreErrors then .ok (if ioError then cs else removeAt cs p)
  else if (lookupFS cs p).isNone then .error "FileNotFoundError"
  else if ioError then .error "OSError"
  else .ok (removeAt cs p)

/-- Models `safe_rmtree(path)`: `shutil.rmtree(path, ignore_errors=True)`
inside a `try/except: pass`, so every error is swallowed and the caller is
told nothing (the Python function returns `None` either way). -/
def safe_rmtree (cs : List FS) (p : List String) (ioError : Bool) :
    Except String (List FS) :=
  match rmtree cs p ioError true with
  | .ok r => .ok r
  | .error _ => .ok cs

/-! ### Theorems for the claims -/

/-- The character set the C1 claim (and the spec) allows in a normalized
base name: lowercase ASCII letters, digits, hyphen, underscore. -/
def claimSlugChar (c : Char) : Bool :=
  ('a' ≤ c && c ≤ 'z') || ('0' ≤ c && c ≤ '9') || c == '-' || c == '_'

/-- C1: the Input Normalizer is claimed to return an ASCII-only string of
lowercase letters, digits, hyphens and underscores for every input.  The
code violates this (and `slugify_basename`'s own docstring, "Gera um nome
ASCII seguro"): Python's `\w` is Unicode-aware, so for the filename
`café.mp3` the normalizer returns `café`, which contains the non-ASCII
letter é (U+00E9). -/
theorem C1_slugify_not_ascii :
    slugify_basename "café.mp3" "input" = "café" ∧
    ("café".toList.all claimSlugChar) = false := by
  constructor
  · decide
  · decide

/-- C2: with ffmpeg present, an unsupported model makes `separate_core`
fail with the `InvalidModel` `ValueError`, and its effect trace contains
no subprocess spawn and no output-directory inspection. -/
theorem C2_invalid_model_fails_early (env : Env) (fp model : String) (gpu : Bool)
    (hff : env.ffmpeg = true) (hm : model ∉ DEMUCS_MODELS) :
    (separate_core env fp model gpu).1 = .error (.invalidModel model) ∧
    ((separate_core env fp model gpu).2.all
      (fun e => !e.isSpawn && !e.isInspect)) = true := by
  simp [separate_core, run_demucs, hff, hm, Event.isSpawn, Event.isInspect]

/-- Environment used to instantiate C2: ffmpeg present, nothing else
relevant. -/
def envInvalidModel : Env := ⟨true, ["tmp", "work"], true, "", "", []⟩

/-- Witness for C2 at the spec's own example model `"not-a-model"`. -/
theorem C2_invalid_model_fails_early_witness :
    envInvalidModel.ffmpeg = true ∧ "not-a-model" ∉ DEMUCS_MODELS ∧
    (separate_core envInvalidModel "song.mp3" "not-a-model" false).1 =
      .error (.invalidModel "not-a-model") ∧
    ((separate_core envInvalidModel "song.mp3" "not-a-model" false).2.all
      (fun e => !e.isSpawn && !e.isInspect)) = true :=
  ⟨rfl, by decide,
   (C2_invalid_model_fails_early envInvalidModel "song.mp3" "not-a-model" false rfl
      (by decide)).1,
   (C2_invalid_model_fails_early envInvalidModel "song.mp3" "not-a-model" false rfl
      (by decide)).2⟩

/-- C5: for every supported model, the built command line carries exactly
that model identifier (as the `-n` argument and as a member of the
command) and the device token `"cpu"` when `use_gpu` is false, `"cuda"`
when it is true; and whenever `separate_core` runs with ffmpeg present and
a supported model, exactly such a command is what gets spawned. -/
theorem C5_command_model_and_device : ∀ model ∈ DEMUCS_MODELS, ∀ (inp outp : String) (gpu : Bool),
    (demucs_cmd inp model gpu outp).get? 2 = some model ∧
    (demucs_cmd inp model gpu outp).get? 6 = some (if gpu then "cuda" else "cpu") ∧
    model ∈ demucs_cmd inp model gpu outp ∧
    (∀ (env : Env) (fp : String), env.ffmpeg = true →
      ∃ c, Event.spawn c ∈ (separate_core env fp model gpu).2 ∧
        c.get? 2 = some model ∧ c.get? 6 = some (if gpu then "cuda" else "cpu")) := by
  intro model hm inp outp gpu
  refine ⟨rfl, rfl, by simp [demucs_cmd], ?_⟩
  intro env fp hff
  obtain ⟨ff, wd, rOk, serr, estr, prodFS⟩ := env
  simp only [Env.ffmpeg] at hff
  subst hff
  refine ⟨demucs_cmd (pathStr ((wd ++ ["uploads"]) ++ [slugify_basename fp "input" ++ ".wav"]))
    model gpu (pathStr (wd ++ ["separated"])), ?_, rfl, rfl⟩
  cases rOk with
  | false => simp [separate_core, run_demucs, hm]
  | true =>
    cases hloc : locate_stems_dir prodFS model with
    | ok rel => simp [separate_core, run_demucs, hm, hloc]
    | error e => simp [separate_core, run_demucs, hm, hloc]

/-- Witness for C5 at the default model, both device preferences. -/
theorem C5_command_model_and_device_witness :
    "htdemucs" ∈ DEMUCS_MODELS ∧
    (demucs_cmd "in.wav" "htdemucs" false "out").get? 6 = some "cpu" ∧
    (demucs_cmd "in.wav" "htdemucs" true "out").get? 6 = some "cuda" ∧
    (demucs_cmd "in.wav" "htdemucs" false "out").get? 2 = some "htdemucs" :=
  ⟨by decide,
   by simpa using (C5_command_model_and_device "htdemucs" (by decide) "in.wav" "out" false).2.1,
   by simpa using (C5_command_model_and_device "htdemucs" (by decide) "in.wav" "out" true).2.1,
   (C5_command_model_and_device "htdemucs" (by decide) "in.wav" "out" false).1⟩

/-- C6: when ffmpeg is not on the PATH, `separate_core` fails with
`DependencyMissing` and its trace creates no directory at all (no
`mkdtemp`, no `mkdir`): the only effect is the dependency check itself. -/
theorem C6_ffmpeg_missing_fails_first (env : Env) (fp model : String) (gpu : Bool)
    (hff : env.ffmpeg = false) :
    (separate_core env fp model gpu).1 = .error .dependencyMissing ∧
    ((separate_core env fp model gpu).2.all (fun e => !e.makesDir)) = true ∧
    (separate_core env fp model gpu).2 = [Event.checkFfmpeg] := by
  simp [separate_core, hff, Event.makesDir]

/-- Environment used to instantiate C6: ffmpeg absent. -/
def envNoFfmpeg : Env := ⟨false, ["tmp", "work"], true, "", "", []⟩

/-- Witness for C6. -/
theorem C6_ffmpeg_missing_fails_first_witness :
    envNoFfmpeg.ffmpeg = false ∧
    (separate_core envNoFfmpeg "song.mp3" "htdemucs" false).1 = .error .dependencyMissing ∧
    (separate_core envNoFfmpeg "song.mp3" "htdemucs" false).2 = [Event.checkFfmpeg] :=
  ⟨rfl,
   (C6_ffmpeg_missing_fails_first envNoFfmpeg "song.mp3" "htdemucs" false rfl).1,
   (C6_ffmpeg_missing_fails_first envNoFfmpeg "song.mp3" "htdemucs" false rfl).2.2⟩

/-- C7: `safe_rmtree` never raises and never reports failure — for every
filesystem state, every path (existing or not) and every I/O outcome it
returns normally; while the underlying `rmtree` without error suppression
does raise `FileNotFoundError` on a missing path, showing the suppression
is doing real work. -/
theorem C7_safe_rmtree_never_raises :
    (∀ (cs : List FS) (p : List String) (ioError : Bool),
      ∃ r, safe_rmtree cs p ioError = .ok r) ∧
    rmtree [] ["missing"] false false = .error "FileNotFoundError" := by
  constructor
  · intro cs p ioError
    exact ⟨if ioError then cs else removeAt cs p, rfl⟩
  · rfl

/-- C8: a stems directory with zero `*.wav` entries yields the all-null
`StemSet` — `find_stems` returns normally rather than failing. -/
theorem C8_no_wavs_all_null (entries : List String)
    (h : entries.filter wavName = []) :
    find_stems entries = StemSet.empty := by
  simp [find_stems, h, StemSet.anyAssigned, StemSet.empty]

/-- Witness for C8 on a directory holding only a non-audio file. -/
theorem C8_no_wavs_all_null_witness :
    (["readme.txt"].filter wavName = ([] : List String)) ∧
    find_stems ["readme.txt"] = StemSet.empty :=
  ⟨by decide, C8_no_wavs_all_null ["readme.txt"] (by decide)⟩

/-- When a wav matches no key, the name-matching inner loop leaves the
dict unchanged. -/
lemma assignMatches_id (acc : StemSet) (w : String)
    (h : ∀ key ∈ STEM_KEYS, hasSubstrS key (lowerS (pathStem w)) = false) :
    assignMatches acc w = acc := by
  have h1 := h "vocals" (by simp [STEM_KEYS])
  have h2 := h "drums" (by simp [STEM_KEYS])
  have h3 := h "bass" (by simp [STEM_KEYS])
  have h4 := h "other" (by simp [STEM_KEYS])
  simp [assignMatches, STEM_KEYS, h1, h2, h3, h4]

/-- When no wav matches any key, the whole name-matching pass leaves the
dict unchanged. -/
lemma foldl_assignMatches_id (l : List String) (acc : StemSet)
    (h : ∀ w ∈ l, ∀ key ∈ STEM_KEYS, hasSubstrS key (lowerS (pathStem w)) = false) :
    l.foldl assignMatches acc = acc := by
  induction l generalizing acc with
  | nil => rfl
  | cons w t ih =>
    rw [List.foldl_cons, assignMatches_id acc w (h w (by simp))]
    exact ih acc (fun x hx key hk => h x (by simp [hx]) key hk)

/-- The ordinal-fallback loop fills the keys from the sorted list by
position, truncating past its length. -/
lemma ordinal_fill (ws : List String) :
    STEM_KEYS.enum.foldl
      (fun a ik =>
        match ws.get? ik.1 with
        | some w => a.set ik.2 (some w)
        | none => a)
      StemSet.empty =
    ⟨ws.get? 0, ws.get? 1, ws.get? 2, ws.get? 3⟩ := by
  rcases ws with _ | ⟨a, _ | ⟨b, _ | ⟨c, _ | ⟨d, t⟩⟩⟩⟩ <;> rfl

/-- C4: when audio files exist but none of their lowercased base names
contains any canonical key, `find_stems` assigns by sorted-filename
ordinal position — sorted file 0 to vocals, 1 to drums, 2 to bass, 3 to
other — leaving keys past the end of the list null. -/
theorem C4_ordinal_fallback (entries : List String)
    (hne : entries.filter wavName ≠ [])
    (h : ∀ w ∈ entries.filter wavName, ∀ key ∈ STEM_KEYS,
        hasSubstrS key (lowerS (pathStem w)) = false) :
    find_stems entries =
      ⟨(sortStrs (entries.filter wavName)).get? 0,
       (sortStrs (entries.filter wavName)).get? 1,
       (sortStrs (entries.filter wavName)).get? 2,
       (sortStrs (entries.filter wavName)).get? 3⟩ := by
  have hfold := foldl_assignMatches_id (entries.filter wavName) StemSet.empty h
  have hie : (entries.filter wavName).isEmpty = false := by
    cases hl : entries.filter wavName with
    | nil => exact absurd hl hne
    | cons a t => rfl
  have hcond : (!StemSet.empty.anyAssigned && !(false : Bool)) = true := rfl
  simp only [find_stems, hfold, hie, hcond, if_true]
  exact ordinal_fill _

/-- Witness for C4 at the spec's own example (`voice.wav`,
`percussion.wav`): vocals gets the sorted-first file, drums the
sorted-second, bass and other stay null. -/
theorem C4_ordinal_fallback_witness :
    (["voice.wav", "percussion.wav"].filter wavName ≠ []) ∧
    find_stems ["voice.wav", "percussion.wav"] =
      ⟨some "percussion.wav", some "voice.wav", none, none⟩ :=
  ⟨by decide, by
    rw [C4_ordinal_fallback ["voice.wav", "percussion.wav"] (by decide) (by decide)]
    decide⟩

/-- C9: in the name-matching pass the per-file key loop has no break, so a
single wav whose lowercased base name contains several canonical keys is
assigned to every one of them; concretely `bass_and_drums.wav` fills both
the bass and the drums slots. -/
theorem C9_multi_key_assignment :
    (∀ (w key : String), wavName w = true → key ∈ STEM_KEYS →
        hasSubstrS key (lowerS (pathStem w)) = true →
        (find_stems [w]).get key = some w) ∧
    find_stems ["bass_and_drums.wav"] =
      ⟨none, some "bass_and_drums.wav", some "bass_and_drums.wav", none⟩ := by
  constructor
  · intro w key hw hk hmatch
    have hfilter : [w].filter wavName = [w] := by simp [hw]
    simp only [STEM_KEYS, List.mem_cons, List.mem_singleton] at hk
    simp only [find_stems, hfilter, List.foldl_cons, List.foldl_nil,
      assignMatches, STEM_KEYS]
    rcases hk with rfl | rfl | rfl | rfl | hk
    · simp only [hmatch]
      split_ifs <;>
        simp_all [StemSet.set, StemSet.get, StemSet.anyAssigned, StemSet.empty]
    · simp only [hmatch]
      split_ifs <;>
        simp_all [StemSet.set, StemSet.get, StemSet.anyAssigned, StemSet.empty]
    · simp only [hmatch]
      split_ifs <;>
        simp_all [StemSet.set, StemSet.get, StemSet.anyAssigned, StemSet.empty]
    · simp only [hmatch]
      split_ifs <;>
        simp_all [StemSet.set, StemSet.get, StemSet.anyAssigned, StemSet.empty]
    · cases hk
  · decide

/-- Witness for C9: the multi-match file lands in the bass slot (and, by
the concrete conjunct, also in the drums slot). -/
theorem C9_multi_key_assignment_witness :
    wavName "bass_and_drums.wav" = true ∧
    hasSubstrS "bass" (lowerS (pathStem "bass_and_drums.wav")) = true ∧
    (find_stems ["bass_and_drums.wav"]).get "bass" = some "bass_and_drums.wav" :=
  ⟨by decide, by decide,
   C9_multi_key_assignment.1 "bass_and_drums.wav" "bass" (by decide) (by decide) (by decide)⟩

/-- A directory that is a member of a listing contributes its own entry to
`listDirsUnder`. -/
lemma mem_listDirsUnder_base (n : String) (k : List FS) :
    ∀ cs : List FS, FS.dir n k ∈ cs → ([n], k) ∈ listDirsUnder cs := by
  intro cs
  induction cs with
  | nil => intro hm; cases hm
  | cons e es ih =>
    intro hm
    rcases List.mem_cons.mp hm with heq | htail
    · cases heq
      simp only [listDirsUnder]
      exact List.mem_cons_self _ _
    · cases e with
      | file m => simp only [listDirsUnder]; exact ih htail
      | dir m k2 =>
        simp only [listDirsUnder]
        exact List.mem_cons_of_mem _ (List.mem_append_right _ (ih htail))

/-- The recursive directory listing of a member directory embeds, with its
path extended, into the listing of the whole. -/
lemma mem_listDirsUnder_lift (n : String) (k : List FS) (pk : List String × List FS) :
    ∀ cs : List FS, FS.dir n k ∈ cs → pk ∈ listDirsUnder k →
      (n :: pk.1, pk.2) ∈ listDirsUnder cs := by
  intro cs
  induction cs with
  | nil => intro hm _; cases hm
  | cons e es ih =>
    intro hm hp
    rcases List.mem_cons.mp hm with heq | htail
    · cases heq
      simp only [listDirsUnder]
      refine List.mem_cons_of_mem _ (List.mem_append_left _ ?_)
      exact List.mem_map.mpr ⟨pk, hp, rfl⟩
    · cases e with
      | file m => simp only [listDirsUnder]; exact ih htail hp
      | dir m k2 =>
        simp only [listDirsUnder]
        exact List.mem_cons_of_mem _ (List.mem_append_right _ (ih htail hp))

/-- Every directory visited by `rglob` from a member directory is also
visited (with the same contents) by `rglob` from the whole listing. -/
lemma dirs_sub (n : String) (k cs : List FS) (hm : FS.dir n k ∈ cs) :
    ∀ pk ∈ dirsFrom k, ∃ q, (q, pk.2) ∈ dirsFrom cs := by
  intro pk hp
  simp only [dirsFrom] at hp ⊢
  rcases List.mem_cons.mp hp with heq | htail
  · refine ⟨[n], ?_⟩
    rw [heq]
    exact List.mem_cons_of_mem _ (mem_listDirsUnder_base n k cs hm)
  · exact ⟨n :: pk.1, List.mem_cons_of_mem _ (mem_listDirsUnder_lift n k pk cs hm htail)⟩

/-- When no wav-named entry exists in the tree, every visited directory
has an empty `*.wav` glob. -/
lemma noWav_glob (cs : List FS) (h : noWavAnywhere cs = true) :
    ∀ pk ∈ dirsFrom cs, globWav pk.2 = [] := by
  intro pk hp
  exact List.isEmpty_iff.mp (List.all_eq_true.mp h pk hp)

/-- Steps 3–5 all fail inside a member model directory of a wav-free tree,
so the locator raises the `noStems` failure. -/
lemma locateInModelDir_noStems (n : String) (k cs : List FS)
    (hm : FS.dir n k ∈ cs) (h : noWavAnywhere cs = true) :
    locateInModelDir (FS.dir n k) = .error .noStems := by
  have hglob : ∀ pk ∈ dirsFrom k, globWav pk.2 = [] := by
    intro pk hp
    obtain ⟨q, hq⟩ := dirs_sub n k cs hm pk hp
    exact noWav_glob cs h (q, pk.2) hq
  have hchild : childWithWav n k = none := by
    rw [childWithWav, List.findSome?_eq_none_iff]
    intro child hc
    have hcmem : child ∈ k := List.mem_of_mem_filter hc
    have hcdir : FS.isDir child = true := List.of_mem_filter hc
    cases child with
    | file m => cases hcdir
    | dir m k2 =>
      have hk2 : globWav k2 = [] := by
        have hbase : (([m], k2) : List String × List FS) ∈ dirsFrom k :=
          List.mem_cons_of_mem _ (mem_listDirsUnder_base m k2 k hcmem)
        exact hglob ([m], k2) hbase
      simp [FS.children, hk2]
  have hself : globWav k = [] := hglob ([], k) (List.mem_cons_self _ _)
  have hfwp : firstWavParent k = none := by
    rw [firstWavParent, List.findSome?_eq_none_iff]
    intro pk hp
    simp [hglob pk hp]
  simp [locateInModelDir, hchild, hself, hfwp]

/-- The locator fails (with one of its two `OutputNotFound`-family errors)
whenever no wav exists anywhere under the output root. -/
lemma locate_err_of_noWav (cs : List FS) (model : String)
    (hok : modelEntryOk cs model) (h : noWavAnywhere cs = true) :
    locate_stems_dir cs model = .error .noSubdirs ∨
    locate_stems_dir cs model = .error .noStems := by
  cases hf : cs.find? (fun e => FS.name e == model) with
  | some e =>
    have hmem : e ∈ cs := List.mem_of_find?_eq_some hf
    have hname := List.find?_some hf
    have hdir : FS.isDir e = true := hok e hmem (by simpa using hname)
    cases e with
    | file m => cases hdir
    | dir m k =>
      right
      simp only [locate_stems_dir, hf]
      exact locateInModelDir_noStems m k cs hmem h
  | none =>
    cases hd : (cs.filter FS.isDir).head? with
    | none =>
      left
      simp only [locate_stems_dir, hf, hd]
    | some d =>
      have hdmem' : d ∈ cs.filter FS.isDir := by
        cases hl : cs.filter FS.isDir with
        | nil => rw [hl] at hd; cases hd
        | cons a t =>
          rw [hl] at hd
          cases hd
          exact List.mem_cons_self _ _
      have hdmem : d ∈ cs := List.mem_of_mem_filter hdmem'
      have hdir : FS.isDir d = true := List.of_mem_filter hdmem'
      cases d with
      | file m => cases hdir
      | dir m k =>
        right
        simp only [locate_stems_dir, hf, hd]
        exact locateInModelDir_noStems m k cs hdmem h

/-- Inside a resolved model directory, the source's control flow agrees
with the spec's strategies 3–5 composed by first-match. -/
lemma locateInModelDir_dir_eq (n : String) (k : List FS) :
    locateInModelDir (FS.dir n k) =
      (match stratChildWithWav (FS.dir n k) <|> stratDirectWav (FS.dir n k) <|>
          stratRecursiveWav (FS.dir n k) with
        | some p => Except.ok p
        | none => Except.error LocErr.noStems) := by
  have h1 : stratChildWithWav (FS.dir n k) = childWithWav n k := rfl
  have h2 : stratDirectWav (FS.dir n k) =
      (if (globWav k).isEmpty then none else some [n]) := rfl
  have h3 : stratRecursiveWav (FS.dir n k) =
      (firstWavParent k).map (fun rel => n :: rel) := rfl
  rw [h1, h2, h3]
  simp only [locateInModelDir]
  cases hcw : childWithWav n k with
  | some p => simp only [Option.some_orElse]
  | none =>
    simp only [Option.none_orElse]
    by_cases hw : (globWav k).isEmpty = true
    · simp only [if_pos hw, Option.none_orElse]
      cases hf : firstWavParent k with
      | some rel => simp only [Option.map_some']
      | none => simp only [Option.map_none']
    · simp only [if_neg hw, Option.some_orElse]

/-- The Output Locator, as written in `run_demucs`, computes the same
result as the spec's prioritized strategy list, provided any entry named
after the model is a directory. -/
lemma locate_eq_spec (cs : List FS) (model : String) (hok : modelEntryOk cs model) :
    locate_stems_dir cs model = locatorSpec cs model := by
  unfold locate_stems_dir locatorSpec stratNamedModel stratFirstSub
  cases hf : cs.find? (fun e => FS.name e == model) with
  | some e =>
    have hmem : e ∈ cs := List.mem_of_find?_eq_some hf
    have hname := List.find?_some hf
    have hdir : FS.isDir e = true := hok e hmem (by simpa using hname)
    cases e with
    | file m => cases hdir
    | dir m k =>
      simp only [Option.some_orElse]
      exact locateInModelDir_dir_eq m k
  | none =>
    simp only [Option.none_orElse]
    cases hd : (cs.filter FS.isDir).head? with
    | none => rfl
    | some d =>
      have hdmem' : d ∈ cs.filter FS.isDir := by
        cases hl : cs.filter FS.isDir with
        | nil => rw [hl] at hd; cases hd
        | cons a t =>
          rw [hl] at hd
          cases hd
          exact List.mem_cons_self _ _
      have hdir : FS.isDir d = true := List.of_mem_filter hdmem'
      cases d with
      | file m => cases hdir
      | dir m k => exact locateInModelDir_dir_eq m k

/-- C3: the Output Locator implements the spec's ordered first-match
algorithm (steps 1–5, compared against the strategy list `locatorSpec`
modelled from the spec's words), it fails with the `OutputNotFound` family
when no audio file exists anywhere, and on the concrete layout
`output_root/<model>/track1/{vocals,drums}.wav` it returns
`output_root/<model>/track1`. -/
theorem C3_output_locator :
    (∀ (cs : List FS) (model : String), modelEntryOk cs model →
        locate_stems_dir cs model = locatorSpec cs model) ∧
    (∀ (cs : List FS) (model : String), modelEntryOk cs model →
        noWavAnywhere cs = true →
        locate_stems_dir cs model = .error .noSubdirs ∨
        locate_stems_dir cs model = .error .noStems) ∧
    locate_stems_dir
      [FS.dir "htdemucs" [FS.dir "track1" [FS.file "vocals.wav", FS.file "drums.wav"]]]
      "htdemucs" = .ok ["htdemucs", "track1"] :=
  ⟨locate_eq_spec, locate_err_of_noWav, by rfl⟩

/-- Witness for C3: the spec-vs-source equality and the no-audio failure,
instantiated at concrete trees. -/
theorem C3_output_locator_witness :
    modelEntryOk
      [FS.dir "htdemucs" [FS.dir "track1" [FS.file "vocals.wav", FS.file "drums.wav"]]]
      "htdemucs" ∧
    locate_stems_dir
      [FS.dir "htdemucs" [FS.dir "track1" [FS.file "vocals.wav", FS.file "drums.wav"]]]
      "htdemucs" =
      locatorSpec
        [FS.dir "htdemucs" [FS.dir "track1" [FS.file "vocals.wav", FS.file "drums.wav"]]]
        "htdemucs" ∧
    noWavAnywhere [FS.dir "empty" []] = true ∧
    (locate_stems_dir [FS.dir "empty" []] "htdemucs" = .error .noSubdirs ∨
      locate_stems_dir [FS.dir "empty" []] "htdemucs" = .error .noStems) := by
  have hnw : noWavAnywhere [FS.dir "empty" []] = true := by
    simp only [noWavAnywhere, dirsFrom, listDirsUnder]
    decide
  exact ⟨by decide, C3_output_locator.1 _ _ (by decide), hnw,
    C3_output_locator.2.1 _ "htdemucs" (by decide) hnw⟩

/-- Taking the length of the left summand from an append returns it. -/
lemma take_append_self (a b : List String) : (a ++ b).take a.length = a := by
  induction a with
  | nil => rfl
  | cons x xs ih => simp [ih]

/-- A successful `run_demucs` returns a path inside its output root. -/
lemma run_demucs_ok_shape (env : Env) (i m : String) (g : Bool)
    (out s : List String) (evs : List Event)
    (h : run_demucs env i m g out = (.ok s, evs)) :
    ∃ rel, s = out ++ rel := by
  simp only [run_demucs] at h
  split at h
  · split at h
    · split at h
      next rel heq =>
        refine ⟨rel, ?_⟩
        simp only [Prod.mk.injEq, Except.ok.injEq] at h
        exact h.1.symm
      next le heq => simp only [Prod.mk.injEq] at h; cases h.1
    · simp only [Prod.mk.injEq] at h; cases h.1
  · simp only [Prod.mk.injEq] at h; cases h.1

/-- A successful `separate_core` returns the zip inside the work area and
the stems directory inside the work area's `separated/` subdirectory. -/
lemma separate_core_ok_shape (env : Env) (fp model : String) (gpu : Bool)
    (t : List String × List String × List String)
    (h : (separate_core env fp model gpu).1 = .ok t) :
    ∃ rel,
      t.1 = env.workdir ++ [slugify_basename fp "input" ++ ".zip"] ∧
      t.2.1 = env.workdir ∧
      t.2.2 = (env.workdir ++ ["separated"]) ++ rel := by
  simp only [separate_core] at h
  split at h
  · split at h
    next stems_dir evs heq =>
      obtain ⟨rel, hrel⟩ := run_demucs_ok_shape env _ model gpu _ stems_dir evs heq
      simp only [Except.ok.injEq] at h
      refine ⟨rel, ?_⟩
      rw [← h, hrel]
      exact ⟨rfl, rfl, rfl⟩
    next e evs heq => cases h
  · cases h

/-- C10: every successful `separate_core` run returns an archive path and
a stems-directory path both strictly inside the returned work area (the
work area is a proper prefix of each), so deleting the work area
recursively removes both artifacts. -/
theorem C10_artifacts_inside_workdir (env : Env) (fp model : String) (gpu : Bool)
    (zipP wd stems : List String)
    (h : (separate_core env fp model gpu).1 = .ok (zipP, wd, stems)) :
    (wd.length < zipP.length ∧ zipP.take wd.length = wd) ∧
    (wd.length < stems.length ∧ stems.take wd.length = wd) := by
  obtain ⟨rel, h1, h2, h3⟩ := separate_core_ok_shape env fp model gpu _ h
  simp only at h1 h2 h3
  subst h2
  constructor
  · rw [h1]
    refine ⟨?_, take_append_self _ _⟩
    simp only [List.length_append, List.length_cons, List.length_nil]
    omega
  · rw [h3, List.append_assoc]
    refine ⟨?_, take_append_self _ _⟩
    simp only [List.length_append, List.length_cons, List.length_nil]
    omega

/-- Environment used to instantiate C10: a successful pipeline run. -/
def envSuccess : Env := ⟨true, ["tmp", "work"], true, "", "",
  [FS.dir "htdemucs" [FS.dir "song" [FS.file "vocals.wav"]]]⟩

/-- Witness for C10 on a concrete successful run. -/
theorem C10_artifacts_inside_workdir_witness :
    (separate_core envSuccess "song.mp3" "htdemucs" false).1 =
      .ok (["tmp", "work", "song.zip"], ["tmp", "work"],
           ["tmp", "work", "separated", "htdemucs", "song"]) ∧
    ((["tmp", "work"] : List String).length < (["tmp", "work", "song.zip"] : List String).length ∧
      (["tmp", "work", "song.zip"] : List String).take (["tmp", "work"] : List String).length =
        ["tmp", "work"]) ∧
    ((["tmp", "work"] : List String).length <
        (["tmp", "work", "separated", "htdemucs", "song"] : List String).length ∧
      (["tmp", "work", "separated", "htdemucs", "song"] : List String).take
          (["tmp", "work"] : List String).length = ["tmp", "work"]) :=
  ⟨rfl, C10_artifacts_inside_workdir envSuccess "song.mp3" "htdemucs" false
    ["tmp", "work", "song.zip"] ["tmp", "work"]
    ["tmp", "work", "separated", "htdemucs", "song"] rfl⟩

end SepSongs
